import Mathlib

/-
Verification of the trip-data ETL pipeline in src/data_loader.py.

The embedding models:
  - the row filter and datetime normalisation of DataLoader.load_transform_file,
  - the graph store as an explicit state (Location nodes, TRIP relationships)
    together with the Cypher MERGE and MATCH-MERGE statements issued by
    DataLoader.create_location_node and DataLoader.create_trip_relationship,
  - the retry loop of main as an event trace over an environment oracle that
    says, for each attempt, whether the store connection opens and whether the
    load-transform-write sequence completes.

Machine reals (the pandas float64 columns) are modelled as rationals; the
literals 0.1 and 2.5 become 1/10 and 5/2, and the strict comparisons of the
source are kept strict.
-/

namespace DataLoader

/-- Error kinds of the pipeline: store unreachable, file load failure,
timestamp format mismatch, write failure. -/
inductive PipeError
  | connectivityError
  | loadError
  | parseError
  | writeError
deriving DecidableEq

/-- A raw input row restricted to the six columns selected at line 66 of
data_loader.py: both timestamp columns still unparsed strings, integer zone
ids, rational distance and fare. -/
structure RawRow where
  tpep_pickup_datetime : String
  tpep_dropoff_datetime : String
  PULocationID : Int
  DOLocationID : Int
  trip_distance : ℚ
  fare_amount : ℚ
deriving DecidableEq

/-- A parsed calendar timestamp, the per-value result of `pd.to_datetime`
with the fixed format at lines 76 and 77. -/
structure DateTime where
  year : Nat
  month : Nat
  day : Nat
  hour : Nat
  minute : Nat
  second : Nat
deriving DecidableEq

/-- A trip record as assembled at lines 87 to 94 and handed to
`create_trip_relationship`. -/
structure Trip where
  PULocationID : Int
  DOLocationID : Int
  trip_distance : ℚ
  fare_amount : ℚ
  tpep_pickup_datetime : DateTime
  tpep_dropoff_datetime : DateTime
deriving DecidableEq

/-- The hardcoded set of 43 Bronx zone ids, line 67 of data_loader.py. -/
def bronx_locations : List Int :=
  [3, 18, 20, 31, 32, 46, 47, 51, 58, 59, 60, 69, 78, 81, 94, 119, 126, 136,
   147, 159, 167, 168, 169, 174, 182, 183, 184, 185, 199, 200, 208, 212, 213,
   220, 235, 240, 241, 242, 247, 248, 250, 254, 259]

/-- The row predicate of lines 70 to 73: both endpoints in the Bronx set,
distance strictly above 0.1 (= mkRat 1 10), fare strictly above 2.5
(= mkRat 5 2), all conjunctive. -/
def keepRow (r : RawRow) : Bool :=
  decide (r.PULocationID ∈ bronx_locations) &&
  decide (r.DOLocationID ∈ bronx_locations) &&
  decide (r.trip_distance > mkRat 1 10) &&
  decide (r.fare_amount > mkRat 5 2)

/-- Numeric value of a decimal digit character. -/
def digitVal (c : Char) : Nat := c.toNat - 48

/-- Gregorian leap-year test, as used by calendar validation. -/
def isLeap (y : Nat) : Bool := (y % 4 == 0 && y % 100 != 0) || y % 400 == 0

/-- Number of days of a month in a given year. -/
def daysInMonth (y m : Nat) : Nat :=
  if m = 2 then (if isLeap y then 29 else 28)
  else if m = 4 ∨ m = 6 ∨ m = 9 ∨ m = 11 then 30
  else 31

/-- Model of one value going through `pd.to_datetime(col, format="%Y-%m-%d
%H:%M:%S")` at lines 76 and 77: the string must consist of exactly four year
digits, dash, two month digits, dash, two day digits, space, two hour digits,
colon, two minute digits, colon, two second digits, and denote a valid
calendar time. `none` models the ValueError pandas raises on any value not
matching the format; nothing is coerced. -/
def to_datetime (s : String) : Option DateTime :=
  match s.toList with
  | [y1, y2, y3, y4, '-', m1, m2, '-', d1, d2, ' ', h1, h2, ':', n1, n2, ':', s1, s2] =>
    if y1.isDigit && y2.isDigit && y3.isDigit && y4.isDigit && m1.isDigit && m2.isDigit
        && d1.isDigit && d2.isDigit && h1.isDigit && h2.isDigit && n1.isDigit && n2.isDigit
        && s1.isDigit && s2.isDigit then
      let y := 1000 * digitVal y1 + 100 * digitVal y2 + 10 * digitVal y3 + digitVal y4
      let mo := 10 * digitVal m1 + digitVal m2
      let d := 10 * digitVal d1 + digitVal d2
      let h := 10 * digitVal h1 + digitVal h2
      let mi := 10 * digitVal n1 + digitVal n2
      let sec := 10 * digitVal s1 + digitVal s2
      if decide (1 ≤ mo) && decide (mo ≤ 12) && decide (1 ≤ d) &&
          decide (d ≤ daysInMonth y mo) && decide (h ≤ 23) && decide (mi ≤ 59) &&
          decide (sec ≤ 59) then
        some ⟨y, mo, d, h, mi, sec⟩
      else none
    else none
  | _ => none

/-- The per-row effect of the datetime conversion at lines 76 to 77 combined
with the record assembly at lines 87 to 94: both timestamps must parse, else
the conversion raises (ParseError). -/
def rowToTrip (r : RawRow) : Except PipeError Trip :=
  match to_datetime r.tpep_pickup_datetime, to_datetime r.tpep_dropoff_datetime with
  | some p, some q =>
      Except.ok ⟨r.PULocationID, r.DOLocationID, r.trip_distance, r.fare_amount, p, q⟩
  | _, _ => Except.error PipeError.parseError

/-- Sequential fallible map: the whole conversion fails as soon as any value
fails, exactly as a column-wise `pd.to_datetime` raises on the first bad
value and converts every value otherwise. -/
def mapExcept {α β : Type} (f : α → Except PipeError β) : List α → Except PipeError (List β)
  | [] => Except.ok []
  | a :: l =>
    match f a with
    | Except.error e => Except.error e
    | Except.ok b =>
      match mapExcept f l with
      | Except.error e => Except.error e
      | Except.ok bs => Except.ok (b :: bs)

/-- The Record Transformer, lines 66 to 77 of load_transform_file: select the
six columns (already done by the RawRow type), filter by `keepRow`, then
normalise the timestamps of every retained row. -/
def transform (rows : List RawRow) : Except PipeError (List Trip) :=
  mapExcept rowToTrip (rows.filter keepRow)

/-- The graph store state: Location nodes (keyed by name) and TRIP
relationships. Lists are used so that duplicates are representable and
"exactly one" is a statement about a count. -/
structure Graph where
  nodes : List Int
  rels : List Trip
deriving DecidableEq

/-- `create_location_node`, lines 26 to 36: MERGE on a Location node keyed by
name creates the node only when no node with that name exists, otherwise it
is a no-op. -/
def create_location_node (g : Graph) (location_id : Int) : Graph :=
  if location_id ∈ g.nodes then g else { g with nodes := g.nodes ++ [location_id] }

/-- `create_trip_relationship`, lines 38 to 54: MATCH both endpoint nodes by
name, then MERGE a TRIP relationship carrying the full attribute tuple.
Cypher semantics: when the MATCH yields no row (either endpoint missing) the
following MERGE runs zero times and the query succeeds with no effect; when
both endpoints exist, MERGE creates the relationship only if no relationship
with exactly these four attributes exists between them. -/
def create_trip_relationship (g : Graph) (trip : Trip) : Graph :=
  if trip.PULocationID ∈ g.nodes ∧ trip.DOLocationID ∈ g.nodes then
    if trip ∈ g.rels then g else { g with rels := g.rels ++ [trip] }
  else g

/-- One write issued through the session at lines 80 to 95. -/
inductive WriteOp
  | upsertLoc (location_id : Int)
  | upsertTrip (trip : Trip)
deriving DecidableEq

/-- pandas `Series.unique`: distinct values in order of first occurrence. -/
def uniqueFirst : List Int → List Int
  | [] => []
  | a :: l => a :: uniqueFirst (l.filter (fun b => b ≠ a))
termination_by l => l.length
decreasing_by simp_wf; exact Nat.lt_succ_of_le (List.length_filter_le _ _)

/-- The session body of lines 80 to 95: one `create_location_node` per
distinct zone id of the concatenated pickup and dropoff columns, then one
`create_trip_relationship` per retained row, in row order. -/
def sessionWrites (ts : List Trip) : List WriteOp :=
  (uniqueFirst (ts.map (fun t => t.PULocationID) ++ ts.map (fun t => t.DOLocationID))).map
      WriteOp.upsertLoc
    ++ ts.map WriteOp.upsertTrip

/-- The trip arguments of the upsertTrip calls of a write sequence, in
order. -/
def tripsOf (ops : List WriteOp) : List Trip :=
  ops.filterMap (fun o => match o with | WriteOp.upsertTrip t => some t | _ => none)

/-- Environment of one attempt of main: does the DataLoader constructor at
line 104 succeed (store connection opens and verifies), and does
load_transform_file at line 105 complete. `close` at line 106 is assumed not
to raise. -/
structure AttemptOutcome where
  connectOk : Bool
  loadOk : Bool
deriving DecidableEq

/-- Observable events of a run of main. -/
inductive Event
  | connect (ok : Bool)
  | loadWrite (ok : Bool)
  | close
  | logError (attempt : Nat)
  | sleep (n : Nat)
deriving DecidableEq

/-- The try block of lines 103 to 107: construct the DataLoader (connect),
run load_transform_file, close, break. An exception at any step aborts the
block at that step; close is only reached when the two previous steps
succeed. -/
def runAttempt (o : AttemptOutcome) : List Event × Except PipeError Unit :=
  if o.connectOk then
    if o.loadOk then
      ([Event.connect true, Event.loadWrite true, Event.close], Except.ok ())
    else
      ([Event.connect true, Event.loadWrite false], Except.error PipeError.loadError)
  else ([Event.connect false], Except.error PipeError.connectivityError)

/-- The while loop of lines 102 to 111, by recursion on the remaining
attempts (total_attempts - attempt). The except branch at lines 108 to 111
logs attempt+1 together with the error, sleeps 10 seconds and loops; the
exception itself is absorbed and never re-raised. -/
def mainLoop (oracle : Nat → AttemptOutcome) :
    Nat → Nat → List Event × Except PipeError Unit
  | _, 0 => ([], Except.ok ())
  | attempt, rem + 1 =>
    match runAttempt (oracle attempt) with
    | (evs, Except.ok _) => (evs, Except.ok ())
    | (evs, Except.error _) =>
      let rest := mainLoop oracle (attempt + 1) rem
      (evs ++ [Event.logError (attempt + 1), Event.sleep 10] ++ rest.1, rest.2)

/-- `main`, lines 97 to 111: total_attempts = 10, attempt starts at 0. The
first component is the event trace, the second the exception (if any) that
main would propagate to its caller. -/
def mainRun (oracle : Nat → AttemptOutcome) : List Event × Except PipeError Unit :=
  mainLoop oracle 0 10

/-- An attempt succeeds when both the connection and the load complete. -/
def attemptOk (o : AttemptOutcome) : Bool := o.connectOk && o.loadOk

/-- Recogniser for connection-attempt events. -/
def isConnect : Event → Bool
  | Event.connect _ => true
  | _ => false

/-- Recogniser for a completed load-transform-write sequence. -/
def isLoadSuccess : Event → Bool
  | Event.loadWrite true => true
  | _ => false

/-- Recogniser for logged errors. -/
def isLogError : Event → Bool
  | Event.logError _ => true
  | _ => false

/-- Scenario oracle: connection fails on attempts 1 to 3, succeeds from
attempt 4 on. -/
def retryScenario (k : Nat) : AttemptOutcome :=
  if k < 3 then ⟨false, true⟩ else ⟨true, true⟩

/-- Oracle under which the store never accepts a connection. -/
def allConnectFail (_ : Nat) : AttemptOutcome := ⟨false, true⟩

/-- Oracle under which the connection always opens and the subsequent
load-transform-write sequence always raises. -/
def connThenLoadFail (_ : Nat) : AttemptOutcome := ⟨true, false⟩

/-- Iterated location upsert: the effect of calling `create_location_node`
n times in a row with the same zone id. -/
def upsertLocTimes (g : Graph) (i : Int) : Nat → Graph
  | 0 => g
  | n + 1 => create_location_node (upsertLocTimes g i n) i

/-- Parsed timestamp 2022-03-01 08:00:00. -/
def dtMar1h8 : DateTime := ⟨2022, 3, 1, 8, 0, 0⟩

/-- Parsed timestamp 2022-03-01 08:20:00. -/
def dtMar1h820 : DateTime := ⟨2022, 3, 1, 8, 20, 0⟩

/-- A concrete row that passes every filter predicate and has well-formed
timestamps (the end-to-end scenario of the design's testable properties). -/
def goodRow : RawRow :=
  ⟨"2022-03-01 08:00:00", "2022-03-01 08:20:00", 3, 18, 5, 10⟩

/-- The trip record `goodRow` transforms into. -/
def goodTrip : Trip := ⟨3, 18, 5, 10, dtMar1h8, dtMar1h820⟩

/-- Same endpoints as `goodTrip`, different fare. -/
def goodTripFare12 : Trip := ⟨3, 18, 5, 12, dtMar1h8, dtMar1h820⟩

/-- A row at the filter boundary: distance exactly 0.1. -/
def boundaryRow : RawRow :=
  ⟨"2022-03-01 08:00:00", "2022-03-01 08:20:00", 3, 18, mkRat 1 10, 10⟩

/-- A row that passes the filter but whose pickup timestamp does not match
the exact format (a T separator instead of a space). -/
def badTsRow : RawRow :=
  ⟨"2022-03-01T08:00:00", "2022-03-01 08:20:00", 3, 18, 5, 10⟩

/-- The empty graph store. -/
def gEmpty : Graph := ⟨[], []⟩

/-- A store holding the single Location node 3. -/
def gOneNode : Graph := ⟨[3], []⟩

/-- A store holding Location nodes 3 and 18 and no relationships. -/
def gTwoNodes : Graph := ⟨[3, 18], []⟩

/-- A trip whose dropoff zone 99 has no Location node in `gOneNode`. -/
def tripMissingEnd : Trip := ⟨3, 99, 5, 10, dtMar1h8, dtMar1h820⟩

end DataLoader

namespace DataLoader

/- ### Helper lemmas about the graph writer -/

theorem cln_nodes_mem (g : Graph) (i : Int) : i ∈ (create_location_node g i).nodes := by
  unfold create_location_node
  by_cases h : i ∈ g.nodes
  · simp [h]
  · simp [h]

theorem cln_of_mem (g : Graph) (i : Int) (h : i ∈ g.nodes) :
    create_location_node g i = g := by
  simp [create_location_node, h]

theorem cln_count (g : Graph) (i : Int) (h : g.nodes.count i ≤ 1) :
    (create_location_node g i).nodes.count i = 1 := by
  unfold create_location_node
  by_cases hm : i ∈ g.nodes
  · simp only [if_pos hm]
    have hp : 0 < g.nodes.count i := List.count_pos_iff.mpr hm
    omega
  · simp only [if_neg hm]
    have h0 : g.nodes.count i = 0 := List.count_eq_zero.mpr hm
    simp [List.count_append, h0]

/-- C7: calling the location upsert any number of times (at least once) with
the same zone id leaves exactly one Location node with that id in a store
that starts with at most one, and any call after the first is a no-op on the
whole store state. -/
theorem C7_upsert_location_idempotent (g : Graph) (i : Int) (n : Nat)
    (hc : g.nodes.count i ≤ 1) (hn : 1 ≤ n) :
    (upsertLocTimes g i n).nodes.count i = 1 ∧
    create_location_node (upsertLocTimes g i n) i = upsertLocTimes g i n := by
  obtain ⟨m, rfl⟩ : ∃ m, n = m + 1 := ⟨n - 1, by omega⟩
  clear hn
  induction m with
  | zero => exact ⟨cln_count g i hc, cln_of_mem _ i (cln_nodes_mem g i)⟩
  | succ k ih =>
    have h2 : upsertLocTimes g i (k + 1 + 1) = upsertLocTimes g i (k + 1) := ih.2
    rw [h2]
    exact ih

theorem C7_witness :
    (upsertLocTimes gEmpty 3 2).nodes.count 3 = 1 ∧
    create_location_node (upsertLocTimes gEmpty 3 2) 3 = upsertLocTimes gEmpty 3 2 :=
  C7_upsert_location_idempotent gEmpty 3 2 (by decide) (by decide)

/-- C2 (counterexample to the claim as stated): with the store holding only
Location node 3, upserting a trip whose dropoff zone 99 has no node does not
fail: the query's MATCH clause yields zero rows, so the MERGE runs zero
times, the store is left exactly as it was and no relationship is created.
The claim says this situation raises a WriteError rather than silently doing
nothing; the code silently does nothing. -/
theorem C2_counterexample :
    create_trip_relationship gOneNode tripMissingEnd = gOneNode ∧
    tripMissingEnd ∉ (create_trip_relationship gOneNode tripMissingEnd).rels := by
  constructor
  · have h : ¬(tripMissingEnd.PULocationID ∈ gOneNode.nodes ∧
        tripMissingEnd.DOLocationID ∈ gOneNode.nodes) := by decide
    simp [create_trip_relationship, h]
  · decide

/-- C2 (amended): for every trip record whose pickup or dropoff zone id has
no Location node in the store, the relationship upsert succeeds with no
effect: the endpoint match yields no rows, no relationship is created and no
error is raised. -/
theorem C2_amended_silent_noop (g : Graph) (t : Trip)
    (h : t.PULocationID ∉ g.nodes ∨ t.DOLocationID ∉ g.nodes) :
    create_trip_relationship g t = g := by
  have hn : ¬(t.PULocationID ∈ g.nodes ∧ t.DOLocationID ∈ g.nodes) := by
    rintro ⟨h1, h2⟩
    rcases h with h | h <;> exact h (by assumption)
  simp [create_trip_relationship, hn]

theorem C2_amended_witness :
    create_trip_relationship gOneNode tripMissingEnd = gOneNode :=
  C2_amended_silent_noop gOneNode tripMissingEnd (Or.inr (by decide))

/-- C3: a row is retained by the transformer's filter iff it is an input row
and all four predicates hold conjunctively (pickup zone in the Bronx set,
dropoff zone in the Bronx set, distance strictly above 0.1, fare strictly
above 2.5); a row with distance exactly 0.1 or fare exactly 2.5 is
excluded. -/
theorem C3_filter_conjunctive (rows : List RawRow) (r : RawRow) :
    (r ∈ rows.filter keepRow ↔
      r ∈ rows ∧ r.PULocationID ∈ bronx_locations ∧ r.DOLocationID ∈ bronx_locations ∧
        r.trip_distance > mkRat 1 10 ∧ r.fare_amount > mkRat 5 2)
  ∧ (r.trip_distance = mkRat 1 10 → r ∉ rows.filter keepRow)
  ∧ (r.fare_amount = mkRat 5 2 → r ∉ rows.filter keepRow) := by
  have hiff : r ∈ rows.filter keepRow ↔
      r ∈ rows ∧ r.PULocationID ∈ bronx_locations ∧ r.DOLocationID ∈ bronx_locations ∧
        r.trip_distance > mkRat 1 10 ∧ r.fare_amount > mkRat 5 2 := by
    rw [List.mem_filter]
    simp [keepRow, Bool.and_eq_true, decide_eq_true_eq, and_assoc]
  refine ⟨hiff, ?_, ?_⟩
  · intro hd hmem
    have h := (hiff.mp hmem).2.2.2.1
    rw [hd] at h
    exact lt_irrefl _ h
  · intro hf hmem
    have h := (hiff.mp hmem).2.2.2.2
    rw [hf] at h
    exact lt_irrefl _ h

theorem C3_witness :
    goodRow ∈ [goodRow].filter keepRow ∧ boundaryRow ∉ [boundaryRow].filter keepRow := by
  constructor
  · exact (C3_filter_conjunctive [goodRow] goodRow).1.mpr
      ⟨by simp, by decide, by decide, by decide, by decide⟩
  · exact (C3_filter_conjunctive [boundaryRow] boundaryRow).2.1 (by decide)

/- ### Helper lemmas about the trip-relationship upsert -/

theorem ctr_nodes (g : Graph) (t : Trip) :
    (create_trip_relationship g t).nodes = g.nodes := by
  unfold create_trip_relationship
  by_cases h : t.PULocationID ∈ g.nodes ∧ t.DOLocationID ∈ g.nodes
  · by_cases h2 : t ∈ g.rels <;> simp [h, h2]
  · simp [h]

theorem ctr_rels_cases (g : Graph) (t : Trip)
    (hn : t.PULocationID ∈ g.nodes ∧ t.DOLocationID ∈ g.nodes) :
    (t ∈ g.rels ∧ create_trip_relationship g t = g) ∨
    (t ∉ g.rels ∧ (create_trip_relationship g t).rels = g.rels ++ [t]) := by
  by_cases h2 : t ∈ g.rels
  · exact Or.inl ⟨h2, by simp [create_trip_relationship, hn, h2]⟩
  · exact Or.inr ⟨h2, by simp [create_trip_relationship, hn, h2]⟩

theorem ctr_count_self (g : Graph) (t : Trip)
    (hn : t.PULocationID ∈ g.nodes ∧ t.DOLocationID ∈ g.nodes)
    (hc : g.rels.count t ≤ 1) :
    (create_trip_relationship g t).rels.count t = 1 ∧
    t ∈ (create_trip_relationship g t).rels := by
  rcases ctr_rels_cases g t hn with ⟨hm, he⟩ | ⟨hm, he⟩
  · rw [he]
    have hp : 0 < g.rels.count t := List.count_pos_iff.mpr hm
    exact ⟨by omega, hm⟩
  · constructor
    · rw [he, List.count_append, List.count_eq_zero.mpr hm]
      simp
    · have hx : (create_trip_relationship g t).rels = g.rels ++ [t] := he
      rw [hx]
      simp

theorem ctr_count_other (g : Graph) (t t2 : Trip) (hne : t ≠ t2) :
    (create_trip_relationship g t2).rels.count t = g.rels.count t := by
  unfold create_trip_relationship
  by_cases h : t2.PULocationID ∈ g.nodes ∧ t2.DOLocationID ∈ g.nodes
  · by_cases h2 : t2 ∈ g.rels
    · simp [h, h2]
    · have hz : List.count t [t2] = 0 := by
        apply List.count_eq_zero.mpr
        simp [hne]
      simp [h, h2, List.count_append, hz]
  · simp [h]

/-- C4: the relationship upsert is keyed on the full attribute tuple: with
both endpoints present and a well-counted store, upserting the same trip
record twice leaves exactly one relationship with that tuple and the second
call is a no-op on the whole store; upserting a second record sharing both
endpoints but differing in fare yields two distinct relationships, one per
tuple. -/
theorem C4_upsert_key_full_tuple (g : Graph) (t t2 : Trip)
    (hPU : t.PULocationID ∈ g.nodes) (hDO : t.DOLocationID ∈ g.nodes)
    (hct : g.rels.count t ≤ 1) (hct2 : g.rels.count t2 ≤ 1)
    (hsPU : t2.PULocationID = t.PULocationID) (hsDO : t2.DOLocationID = t.DOLocationID)
    (hfare : t2.fare_amount ≠ t.fare_amount) :
    create_trip_relationship (create_trip_relationship g t) t =
      create_trip_relationship g t
  ∧ (create_trip_relationship (create_trip_relationship g t) t).rels.count t = 1
  ∧ t2 ≠ t
  ∧ (create_trip_relationship (create_trip_relationship g t) t2).rels.count t = 1
  ∧ (create_trip_relationship (create_trip_relationship g t) t2).rels.count t2 = 1 := by
  have hne : t2 ≠ t := fun he => hfare (by rw [he])
  have hn : t.PULocationID ∈ g.nodes ∧ t.DOLocationID ∈ g.nodes := ⟨hPU, hDO⟩
  obtain ⟨hcnt1, hmem1⟩ := ctr_count_self g t hn hct
  have hn1 : t.PULocationID ∈ (create_trip_relationship g t).nodes ∧
      t.DOLocationID ∈ (create_trip_relationship g t).nodes := by
    rw [ctr_nodes]; exact hn
  have hidem : create_trip_relationship (create_trip_relationship g t) t =
      create_trip_relationship g t := by
    rcases ctr_rels_cases (create_trip_relationship g t) t hn1 with ⟨_, he⟩ | ⟨hm, _⟩
    · exact he
    · exact absurd hmem1 hm
  have hc2 : (create_trip_relationship g t).rels.count t2 ≤ 1 := by
    rw [ctr_count_other g t2 t hne]
    exact hct2
  have hn2 : t2.PULocationID ∈ (create_trip_relationship g t).nodes ∧
      t2.DOLocationID ∈ (create_trip_relationship g t).nodes := by
    rw [hsPU, hsDO, ctr_nodes]
    exact hn
  refine ⟨hidem, by rw [hidem]; exact hcnt1, hne, ?_, ?_⟩
  · rw [ctr_count_other (create_trip_relationship g t) t t2 hne.symm]
    exact hcnt1
  · exact (ctr_count_self (create_trip_relationship g t) t2 hn2 hc2).1

theorem C4_witness :
    create_trip_relationship (create_trip_relationship gTwoNodes goodTrip) goodTrip =
      create_trip_relationship gTwoNodes goodTrip
  ∧ (create_trip_relationship (create_trip_relationship gTwoNodes goodTrip)
      goodTrip).rels.count goodTrip = 1
  ∧ goodTripFare12 ≠ goodTrip
  ∧ (create_trip_relationship (create_trip_relationship gTwoNodes goodTrip)
      goodTripFare12).rels.count goodTrip = 1
  ∧ (create_trip_relationship (create_trip_relationship gTwoNodes goodTrip)
      goodTripFare12).rels.count goodTripFare12 = 1 :=
  C4_upsert_key_full_tuple gTwoNodes goodTrip goodTripFare12 (by decide) (by decide)
    (by decide) (by decide) (by decide) (by decide) (by decide)

/- ### Helper lemmas about the fallible map and the row conversion -/

theorem mapExcept_ok_iff {α β : Type} (f : α → Except PipeError β) (l : List α) :
    (∃ bs, mapExcept f l = Except.ok bs) ↔ ∀ a ∈ l, ∃ b, f a = Except.ok b := by
  induction l with
  | nil => simp [mapExcept]
  | cons a l ih =>
    cases hfa : f a with
    | error e =>
      constructor
      · rintro ⟨bs, hbs⟩
        simp [mapExcept, hfa] at hbs
      · intro h
        obtain ⟨b, hb⟩ := h a (by simp)
        rw [hfa] at hb
        cases hb
    | ok b =>
      cases hml : mapExcept f l with
      | error e =>
        constructor
        · rintro ⟨bs, hbs⟩
          simp [mapExcept, hfa, hml] at hbs
        · intro h
          obtain ⟨bs, hbs⟩ := ih.mpr (fun x hx => h x (by simp [hx]))
          rw [hml] at hbs
          cases hbs
      | ok bs =>
        constructor
        · intro _ x hx
          rcases List.mem_cons.mp hx with rfl | hx2
          · exact ⟨b, hfa⟩
          · exact ih.mp ⟨bs, hml⟩ x hx2
        · intro _
          exact ⟨b :: bs, by simp [mapExcept, hfa, hml]⟩

theorem mapExcept_parse_error {α β : Type} (f : α → Except PipeError β) :
    ∀ l : List α,
      (∀ a ∈ l, ∀ e, f a = Except.error e → e = PipeError.parseError) →
      (∃ a ∈ l, ∀ b, f a ≠ Except.ok b) →
      mapExcept f l = Except.error PipeError.parseError := by
  intro l
  induction l with
  | nil =>
    intro _ hbad
    simp at hbad
  | cons a l ih =>
    intro hkind hbad
    cases hfa : f a with
    | error e =>
      have he := hkind a (by simp) e hfa
      subst he
      simp [mapExcept, hfa]
    | ok b =>
      have hbad2 : ∃ x ∈ l, ∀ y, f x ≠ Except.ok y := by
        rcases hbad with ⟨x, hx, hnone⟩
        rcases List.mem_cons.mp hx with rfl | hx2
        · exact absurd hfa (hnone b)
        · exact ⟨x, hx2, hnone⟩
      have hrec := ih (fun x hx e h => hkind x (by simp [hx]) e h) hbad2
      simp [mapExcept, hfa, hrec]

theorem mapExcept_ok_spec {α β : Type} (f : α → Except PipeError β) :
    ∀ (l : List α) (bs : List β), mapExcept f l = Except.ok bs →
      bs.length = l.length ∧
      ∀ i (hi : i < l.length) (hb : i < bs.length),
        f (l.get ⟨i, hi⟩) = Except.ok (bs.get ⟨i, hb⟩) := by
  intro l
  induction l with
  | nil =>
    intro bs h
    simp [mapExcept] at h
    subst h
    exact ⟨rfl, fun i hi => absurd hi (by simp)⟩
  | cons a l ih =>
    intro bs h
    cases hfa : f a with
    | error e => simp [mapExcept, hfa] at h
    | ok b =>
      cases hml : mapExcept f l with
      | error e => simp [mapExcept, hfa, hml] at h
      | ok bs2 =>
        have hb : b :: bs2 = bs := by
          have h2 := h
          simp [mapExcept, hfa, hml] at h2
          exact h2
        subst hb
        obtain ⟨hlen, hidx⟩ := ih bs2 hml
        refine ⟨by simp [hlen], ?_⟩
        intro i hi hbnd
        cases i with
        | zero => simpa using hfa
        | succ j =>
          rw [List.get_cons_succ, List.get_cons_succ]
          exact hidx j (by simpa using hi) (by simpa using hbnd)

theorem rowToTrip_ok_iff (r : RawRow) :
    (∃ t, rowToTrip r = Except.ok t) ↔
      (to_datetime r.tpep_pickup_datetime).isSome = true ∧
      (to_datetime r.tpep_dropoff_datetime).isSome = true := by
  unfold rowToTrip
  cases hp : to_datetime r.tpep_pickup_datetime <;>
    cases hq : to_datetime r.tpep_dropoff_datetime <;> simp

theorem rowToTrip_err_kind (r : RawRow) (e : PipeError)
    (h : rowToTrip r = Except.error e) : e = PipeError.parseError := by
  revert h
  unfold rowToTrip
  cases hp : to_datetime r.tpep_pickup_datetime <;>
    cases hq : to_datetime r.tpep_dropoff_datetime <;> intro h <;> first
      | (cases h; rfl)
      | cases h

theorem rowToTrip_timestamps (r : RawRow) (t : Trip) (h : rowToTrip r = Except.ok t) :
    to_datetime r.tpep_pickup_datetime = some t.tpep_pickup_datetime ∧
    to_datetime r.tpep_dropoff_datetime = some t.tpep_dropoff_datetime := by
  revert h
  unfold rowToTrip
  cases hp : to_datetime r.tpep_pickup_datetime with
  | none => intro h; cases h
  | some p =>
    cases hq : to_datetime r.tpep_dropoff_datetime with
    | none => intro h; cases h
    | some q =>
      intro h
      injection h with h2
      rw [← h2]
      exact ⟨rfl, rfl⟩

/-- C6: the transform succeeds exactly when every retained row's two
timestamp values match the exact format modelled by `to_datetime`; any
retained row with a non-matching value makes the whole transform fail with a
ParseError (the row is not dropped and the value is not coerced); and on
success each output timestamp is exactly the parse of the corresponding
input string, with no row lost. -/
theorem C6_timestamp_format (rows : List RawRow) :
    ((∃ ts, transform rows = Except.ok ts) ↔
      ∀ r ∈ rows.filter keepRow,
        (to_datetime r.tpep_pickup_datetime).isSome = true ∧
        (to_datetime r.tpep_dropoff_datetime).isSome = true)
  ∧ ((∃ r ∈ rows.filter keepRow,
        to_datetime r.tpep_pickup_datetime = none ∨
        to_datetime r.tpep_dropoff_datetime = none) →
      transform rows = Except.error PipeError.parseError)
  ∧ (∀ ts, transform rows = Except.ok ts →
      ts.length = (rows.filter keepRow).length ∧
      ∀ i (hi : i < (rows.filter keepRow).length) (ht : i < ts.length),
        to_datetime ((rows.filter keepRow).get ⟨i, hi⟩).tpep_pickup_datetime =
          some ((ts.get ⟨i, ht⟩).tpep_pickup_datetime) ∧
        to_datetime ((rows.filter keepRow).get ⟨i, hi⟩).tpep_dropoff_datetime =
          some ((ts.get ⟨i, ht⟩).tpep_dropoff_datetime)) := by
  refine ⟨?_, ?_, ?_⟩
  · rw [transform, mapExcept_ok_iff]
    constructor
    · intro h r hr
      obtain ⟨t, ht⟩ := h r hr
      exact (rowToTrip_ok_iff r).mp ⟨t, ht⟩
    · intro h r hr
      exact (rowToTrip_ok_iff r).mpr (h r hr)
  · rintro ⟨r, hr, hbad⟩
    apply mapExcept_parse_error rowToTrip (rows.filter keepRow)
      (fun x _ e he => rowToTrip_err_kind x e he)
    refine ⟨r, hr, fun t ht => ?_⟩
    obtain ⟨hp, hq⟩ := rowToTrip_timestamps r t ht
    rcases hbad with hbad | hbad
    · rw [hbad] at hp; cases hp
    · rw [hbad] at hq; cases hq
  · intro ts h
    obtain ⟨hlen, hidx⟩ := mapExcept_ok_spec rowToTrip (rows.filter keepRow) ts h
    refine ⟨hlen, fun i hi ht => ?_⟩
    exact rowToTrip_timestamps _ _ (hidx i hi ht)

theorem C6_witness : transform [badTsRow] = Except.error PipeError.parseError :=
  (C6_timestamp_format [badTsRow]).2.1 ⟨badTsRow, by decide, Or.inl (by decide)⟩

theorem tripsOf_upsertTrips (ts : List Trip) :
    List.filterMap
      ((fun o => match o with | WriteOp.upsertTrip t => some t | _ => none) ∘
        WriteOp.upsertTrip) ts = ts := by
  induction ts with
  | nil => rfl
  | cons t ts2 ih2 =>
    rw [List.filterMap_cons]
    simp only [Function.comp]
    rw [ih2]

theorem tripsOf_sessionWrites (ts : List Trip) : tripsOf (sessionWrites ts) = ts := by
  unfold tripsOf sessionWrites
  rw [List.filterMap_append, List.filterMap_map, List.filterMap_map]
  have h1 : List.filterMap
      ((fun o => match o with | WriteOp.upsertTrip t => some t | _ => none) ∘
        WriteOp.upsertLoc)
      (uniqueFirst (ts.map (fun t => t.PULocationID) ++
        ts.map (fun t => t.DOLocationID))) = [] := by
    apply List.filterMap_eq_nil_iff.mpr
    intro a _
    rfl
  rw [h1, tripsOf_upsertTrips ts]
  rfl

/-- C8: the transformer's output preserves the relative order of the
retained rows (the retained rows are a sublist of the input, and the i-th
output trip is the conversion of the i-th retained row), and the session
write sequence contains exactly one upsertTrip call per output trip, in
exactly the transformer's order. -/
theorem C8_order_preserved (rows : List RawRow) (ts : List Trip)
    (h : transform rows = Except.ok ts) :
    List.Sublist (rows.filter keepRow) rows
  ∧ ts.length = (rows.filter keepRow).length
  ∧ (∀ i (hi : i < (rows.filter keepRow).length) (ht : i < ts.length),
      rowToTrip ((rows.filter keepRow).get ⟨i, hi⟩) = Except.ok (ts.get ⟨i, ht⟩))
  ∧ tripsOf (sessionWrites ts) = ts := by
  obtain ⟨hlen, hidx⟩ := mapExcept_ok_spec rowToTrip (rows.filter keepRow) ts h
  exact ⟨List.filter_sublist rows, hlen, fun i hi ht => hidx i hi ht,
    tripsOf_sessionWrites ts⟩

theorem C8_witness :
    List.Sublist ([goodRow].filter keepRow) [goodRow] ∧
    tripsOf (sessionWrites [goodTrip]) = [goodTrip] := by
  have h := C8_order_preserved [goodRow] [goodTrip] (by rfl)
  exact ⟨h.1, h.2.2.2⟩

/- ### Helper lemmas about the retry loop of main -/

theorem runAttempt_of_ok (o : AttemptOutcome) (h : attemptOk o = true) :
    runAttempt o =
      ([Event.connect true, Event.loadWrite true, Event.close], Except.ok ()) := by
  rcases o with ⟨c, l⟩
  cases c <;> cases l <;> simp_all [attemptOk, runAttempt]

theorem runAttempt_of_fail (o : AttemptOutcome) (h : attemptOk o = false) :
    runAttempt o = ([Event.connect false], Except.error PipeError.connectivityError) ∨
    runAttempt o =
      ([Event.connect true, Event.loadWrite false], Except.error PipeError.loadError) := by
  rcases o with ⟨c, l⟩
  cases c <;> cases l <;> simp_all [attemptOk, runAttempt]

theorem mainLoop_snd (oracle : Nat → AttemptOutcome) :
    ∀ rem a, (mainLoop oracle a rem).2 = Except.ok () := by
  intro rem
  induction rem with
  | zero => intro a; rfl
  | succ k ih =>
    intro a
    simp only [mainLoop]
    rcases hr : runAttempt (oracle a) with ⟨evs, r⟩
    cases r with
    | ok u => simp
    | error e => simp [ih]

theorem mainLoop_countConnect_le (oracle : Nat → AttemptOutcome) :
    ∀ rem a, (mainLoop oracle a rem).1.countP isConnect ≤ rem := by
  intro rem
  induction rem with
  | zero => intro a; simp [mainLoop]
  | succ k ih =>
    intro a
    simp only [mainLoop]
    by_cases hok : attemptOk (oracle a) = true
    · rw [runAttempt_of_ok (oracle a) hok]
      simp [List.countP_cons, isConnect]
    · have hfail : attemptOk (oracle a) = false := by
        cases hv : attemptOk (oracle a)
        · rfl
        · exact absurd hv hok
      have ih2 := ih (a + 1)
      rcases runAttempt_of_fail (oracle a) hfail with hr | hr <;>
        rw [hr] <;>
        · simp [List.countP_append, List.countP_cons, isConnect]
          omega

theorem mainLoop_firstSuccess (oracle : Nat → AttemptOutcome) :
    ∀ k rem a, k < rem →
      (∀ j, j < k → attemptOk (oracle (a + j)) = false) →
      attemptOk (oracle (a + k)) = true →
      (mainLoop oracle a rem).1.countP isConnect = k + 1 ∧
      (mainLoop oracle a rem).1.countP isLoadSuccess = 1 := by
  intro k
  induction k with
  | zero =>
    intro rem a hlt _ hok
    obtain ⟨m, rfl⟩ : ∃ m, rem = m + 1 := ⟨rem - 1, by omega⟩
    simp only [mainLoop]
    rw [runAttempt_of_ok (oracle a) (by simpa using hok)]
    constructor <;> rfl
  | succ k ih =>
    intro rem a hlt hfail hok
    obtain ⟨m, rfl⟩ : ∃ m, rem = m + 1 := ⟨rem - 1, by omega⟩
    have hfail0 : attemptOk (oracle a) = false := by simpa using hfail 0 (by omega)
    have ihm := ih m (a + 1) (by omega)
      (fun j hj => by
        rw [show a + 1 + j = a + (j + 1) from by omega]
        exact hfail (j + 1) (by omega))
      (by
        rw [show a + 1 + k = a + (k + 1) from by omega]
        exact hok)
    simp only [mainLoop]
    rcases runAttempt_of_fail (oracle a) hfail0 with hr | hr <;>
      rw [hr] <;>
      · simp [List.countP_append, List.countP_cons, isConnect, isLoadSuccess, ihm.1, ihm.2]

theorem mainLoop_allFail (oracle : Nat → AttemptOutcome) :
    ∀ rem a, (∀ j, j < rem → attemptOk (oracle (a + j)) = false) →
      (mainLoop oracle a rem).1.countP isLogError = rem ∧
      (0 < rem →
        Event.logError (a + rem) ∈ (mainLoop oracle a rem).1 ∧
        (mainLoop oracle a rem).1.getLast? = some (Event.sleep 10)) := by
  intro rem
  induction rem with
  | zero =>
    intro a _
    exact ⟨by simp [mainLoop], by omega⟩
  | succ m ih =>
    intro a h
    have h0 : attemptOk (oracle a) = false := by simpa using h 0 (by omega)
    have ihm := ih (a + 1) (fun j hj => by
      rw [show a + 1 + j = a + (j + 1) from by omega]
      exact h (j + 1) (by omega))
    simp only [mainLoop]
    rcases runAttempt_of_fail (oracle a) h0 with hr | hr <;> rw [hr] <;>
      · constructor
        · simp [List.countP_append, List.countP_cons, isLogError, ihm.1]
        · intro _
          cases m with
          | zero =>
            constructor
            · simp [mainLoop]
            · simp [mainLoop, List.getLast?_append]
          | succ p =>
            obtain ⟨hmem, hlast⟩ := ihm.2 (by omega)
            constructor
            · rw [show a + (p + 1 + 1) = a + 1 + (p + 1) from by omega]
              exact List.mem_append.mpr (Or.inr hmem)
            · rw [List.getLast?_append, hlast]
              rfl

theorem close_mainLoop (oracle : Nat → AttemptOutcome) :
    ∀ rem a, Event.close ∈ (mainLoop oracle a rem).1 ↔
      ∃ k, k < rem ∧ attemptOk (oracle (a + k)) = true := by
  intro rem
  induction rem with
  | zero =>
    intro a
    simp [mainLoop]
  | succ m ih =>
    intro a
    simp only [mainLoop]
    by_cases hok : attemptOk (oracle a) = true
    · rw [runAttempt_of_ok (oracle a) hok]
      constructor
      · intro _
        exact ⟨0, by omega, by simpa using hok⟩
      · intro _
        simp
    · have hfail : attemptOk (oracle a) = false := by
        cases hv : attemptOk (oracle a)
        · rfl
        · exact absurd hv hok
      rcases runAttempt_of_fail (oracle a) hfail with hr | hr <;> rw [hr] <;>
        · constructor
          · intro hmem
            have hmem2 : Event.close ∈ (mainLoop oracle (a + 1) m).1 := by
              rcases List.mem_append.mp hmem with h1 | h2
              · simp at h1
              · exact h2
            obtain ⟨k, hk, hq⟩ := (ih (a + 1)).mp hmem2
            exact ⟨k + 1, by omega,
              by rw [show a + (k + 1) = a + 1 + k from by omega]; exact hq⟩
          · rintro ⟨k, hk, hq⟩
            cases k with
            | zero =>
              rw [Nat.add_zero] at hq
              exact absurd hq (by simp [hfail])
            | succ k2 =>
              refine List.mem_append.mpr (Or.inr ?_)
              apply (ih (a + 1)).mpr
              exact ⟨k2, by omega,
                by rw [show a + 1 + k2 = a + (k2 + 1) from by omega]; exact hq⟩

/-- C1 (counterexample to the claim as stated): under the environment where
the store connection always opens and the following load-transform-write
sequence always raises, a connection is successfully opened, yet close is
never called anywhere in the whole run: the try block of main has no finally
clause, so the exception jumps straight to the except branch, skipping
data_loader.close(). -/
theorem C1_counterexample :
    Event.connect true ∈ (mainRun connThenLoadFail).1 ∧
    Event.close ∉ (mainRun connThenLoadFail).1 := by
  decide

/-- C1 (amended): the store connection is closed only on the success path:
within one attempt, close runs iff both the connection open and the
load-transform-write sequence succeed, and over a whole run of main, close
appears in the trace iff some attempt among the first ten fully succeeds; an
attempt that opens the connection and then raises leaves it unclosed. -/
theorem C1_amended_close_iff_success (o : AttemptOutcome)
    (oracle : Nat → AttemptOutcome) :
    (Event.close ∈ (runAttempt o).1 ↔ attemptOk o = true)
  ∧ (Event.close ∈ (mainRun oracle).1 ↔
      ∃ k, k < 10 ∧ attemptOk (oracle k) = true) := by
  constructor
  · rcases o with ⟨c, l⟩
    cases c <;> cases l <;> simp [runAttempt, attemptOk]
  · have h := close_mainLoop oracle 10 0
    simpa using h

theorem C1_amended_witness : Event.close ∈ (mainRun retryScenario).1 :=
  (C1_amended_close_iff_success ⟨true, true⟩ retryScenario).2.mpr
    ⟨3, by omega, by decide⟩

/-- C5: every run of main makes at most 10 connection attempts; when the
first k attempts fail and attempt k+1 succeeds (k+1 ≤ 10), exactly k+1
connection attempts happen and the load-and-write sequence completes exactly
once; and in the concrete scenario where the connection fails on attempts 1
to 3 and succeeds on attempt 4, the trace is exactly four attempts, each
failure followed by a logged error and a 10-unit sleep before the next
attempt, ending with the single successful sequence and the close. -/
theorem C5_retry_bounded :
    (∀ oracle : Nat → AttemptOutcome, (mainRun oracle).1.countP isConnect ≤ 10)
  ∧ (∀ (oracle : Nat → AttemptOutcome) (k : Nat), k < 10 →
      (∀ j, j < k → attemptOk (oracle j) = false) → attemptOk (oracle k) = true →
      (mainRun oracle).1.countP isConnect = k + 1 ∧
      (mainRun oracle).1.countP isLoadSuccess = 1)
  ∧ (mainRun retryScenario).1 =
      [Event.connect false, Event.logError 1, Event.sleep 10,
       Event.connect false, Event.logError 2, Event.sleep 10,
       Event.connect false, Event.logError 3, Event.sleep 10,
       Event.connect true, Event.loadWrite true, Event.close] := by
  refine ⟨fun oracle => mainLoop_countConnect_le oracle 10 0, ?_, by decide⟩
  intro oracle k hk hfail hok
  exact mainLoop_firstSuccess oracle k 10 0 hk
    (fun j hj => by simpa using hfail j hj) (by simpa using hok)

theorem C5_witness :
    (mainRun retryScenario).1.countP isConnect = 4 ∧
    (mainRun retryScenario).1.countP isLoadSuccess = 1 := by
  refine C5_retry_bounded.2.1 retryScenario 3 (by omega) ?_ (by decide)
  intro j hj
  interval_cases j <;> decide

/-- C9: when all 10 attempts fail, main still returns normally: every
exception is caught and absorbed by the except branch, the tenth failure is
logged like the others (10 logged errors in total, the last one numbered
10), and nothing is raised or propagated out of main. -/
theorem C9_absorbs_failures (oracle : Nat → AttemptOutcome)
    (h : ∀ j, j < 10 → attemptOk (oracle j) = false) :
    (mainRun oracle).2 = Except.ok () ∧
    (mainRun oracle).1.countP isLogError = 10 ∧
    Event.logError 10 ∈ (mainRun oracle).1 := by
  have hall := mainLoop_allFail oracle 10 0 (fun j hj => by simpa using h j hj)
  refine ⟨mainLoop_snd oracle 10 0, hall.1, ?_⟩
  simpa using (hall.2 (by omega)).1

theorem C9_witness :
    (mainRun allConnectFail).2 = Except.ok () ∧
    (mainRun allConnectFail).1.countP isLogError = 10 ∧
    Event.logError 10 ∈ (mainRun allConnectFail).1 :=
  C9_absorbs_failures allConnectFail (fun _ _ => rfl)

/-- C10: the 10-unit delay runs after every failed attempt including the
tenth and last one: a run in which all attempts fail ends with a trailing
sleep event after the last logged error, because time.sleep(10) sits inside
the except branch unconditionally. -/
theorem C10_trailing_sleep (oracle : Nat → AttemptOutcome)
    (h : ∀ j, j < 10 → attemptOk (oracle j) = false) :
    (mainRun oracle).1.getLast? = some (Event.sleep 10) := by
  have hall := mainLoop_allFail oracle 10 0 (fun j hj => by simpa using h j hj)
  exact (hall.2 (by omega)).2

theorem C10_witness :
    (mainRun allConnectFail).1.getLast? = some (Event.sleep 10) :=
  C10_trailing_sleep allConnectFail (fun _ _ => rfl)

end DataLoader
